import Mathlib

/-!
Verification of the Raspberry Pi photo booth script (camera.py).

The script is shallowly embedded below: the pure image arithmetic of
`overlay_image` becomes functions on an `Img` record, the side effects of
the camera / GPIO libraries become explicit event traces, and the main
polling loop becomes a recursive function over the list of per-cycle
GPIO readings.  Machine integers are modelled as `Nat`/`Int`; the one
floating-point computation in the source (the aspect-ratio scaling in
`overlay_image`) is modelled bit-exactly as IEEE binary64
round-to-nearest-even arithmetic carried out on exact rationals.
-/

namespace PhotoBooth

/-- The configuration values (from camera-config.yaml) that the embedded
fragment reads: display width, install path, and the photo folder. -/
structure Config where
  SCREEN_W : Nat
  REAL_PATH : List Char
  SAVE_RAW_IMAGES_FOLDER : List Char

/-- A decoded raster image: dimensions plus a pixel lookup (pixel values
are abstracted to `Nat`).  Models a PIL `Image` object. -/
structure Img where
  width : Nat
  height : Nat
  pixel : Nat → Nat → Nat

/-- PIL pixel modes accepted by `overlay_image` (its `mode` argument). -/
inductive Mode
  | RGB
  | RGBA
  deriving DecidableEq

/-- PIL `Image.resize((w, h), ANTIALIAS)`: the result has exactly the
requested dimensions.  Pixel content under the ANTIALIAS kernel is a PIL
library internal; index remapping stands in for it (no claim depends on
resampled pixel values). -/
def Img.resize (img : Img) (w h : Nat) : Img :=
  { width := w
    height := h
    pixel := fun x y => img.pixel (x * img.width / w) (y * img.height / h) }

/-- A Python float (IEEE binary64): the non-negative value `m * 2 ^ e`.
A non-zero finite value is normalised with `2 ^ 52 ≤ m < 2 ^ 53`; zero is
`⟨0, 0⟩`.  The model covers the normal range, which holds for every
dimension the script can feed it (Python raises on int-to-float overflow
long before, and subnormals would need widths beyond 2 ^ 1022). -/
structure PyFloat where
  m : Nat
  e : Int
  deriving DecidableEq

/-- Double `n` (dividing the value by no-op, tracking `e`) until
`n / d` reaches `2 ^ 52`; the fuel bounds the iteration count. -/
def normUp : Nat → Nat → Nat → Int → Nat × Nat × Int
  | 0, n, d, e => (n, d, e)
  | fuel + 1, n, d, e =>
    if n < d * 2 ^ 52 then normUp fuel (n * 2) d (e - 1) else (n, d, e)

/-- Double `d` until `n / d` drops below `2 ^ 53`. -/
def normDown : Nat → Nat → Nat → Int → Nat × Nat × Int
  | 0, n, d, e => (n, d, e)
  | fuel + 1, n, d, e =>
    if d * 2 ^ 53 ≤ n then normDown fuel n (d * 2) (e + 1) else (n, d, e)

/-- Round the rational `num / den` to the nearest binary64 value, ties
to even: normalise so the quotient lies in `[2 ^ 52, 2 ^ 53)`, then round
the remainder.  `num + den + 64` always bounds the doublings needed.
(`den = 0` cannot occur on the paths the script takes.) -/
def roundRat (num den : Nat) : PyFloat :=
  if num = 0 ∨ den = 0 then ⟨0, 0⟩
  else
    let s1 := normUp (num + den + 64) num den 0
    let s2 := normDown (num + den + 64) s1.1 s1.2.1 s1.2.2
    let q := s2.1 / s2.2.1
    let r := s2.1 % s2.2.1
    let m := if 2 * r < s2.2.1 then q
      else if s2.2.1 < 2 * r then q + 1
      else q + q % 2
    if m = 2 ^ 53 then ⟨2 ^ 52, s2.2.2 + 1⟩ else ⟨m, s2.2.2⟩

/-- Python `float(n)` for a non-negative int (rounds once `n ≥ 2 ^ 53`). -/
def floatOfNat (n : Nat) : PyFloat :=
  roundRat n 1

/-- The value `n * 2 ^ e` as a rational numerator/denominator pair. -/
def ratOfScaled (n : Nat) (e : Int) : Nat × Nat :=
  if 0 ≤ e then (n * 2 ^ e.toNat, 1) else (n, 2 ^ (-e).toNat)

/-- IEEE binary64 division (correctly rounded). -/
def divFloat (a b : PyFloat) : PyFloat :=
  let p := ratOfScaled a.m (a.e - b.e)
  roundRat p.1 (p.2 * b.m)

/-- IEEE binary64 multiplication (correctly rounded). -/
def mulFloat (a b : PyFloat) : PyFloat :=
  let p := ratOfScaled (a.m * b.m) (a.e + b.e)
  roundRat p.1 p.2

/-- Python `int(x)` for a non-negative float: truncation. -/
def truncFloat (a : PyFloat) : Nat :=
  if 0 ≤ a.e then a.m * 2 ^ a.e.toNat else a.m / 2 ^ (-a.e).toNat

/-- camera.py lines 159-161 in binary64:
`wpercent = SCREEN_W / float(w)` (one rounded division of the two
converted ints) and `hsize = int(float(h) * wpercent)` (one rounded
multiplication, then truncation). -/
def pyHsize (h screenW w : Nat) : Nat :=
  truncFloat (mulFloat (floatOfNat h) (divFloat (floatOfNat screenW) (floatOfNat w)))

/-- camera.py lines 157-162: if the image is wider than the screen,
resize it to `basewidth = SCREEN_W` and
`hsize = int(float(height) * (SCREEN_W / float(width)))`, computed in
IEEE binary64 as the source does; otherwise leave it alone. -/
def scaledImg (cfg : Config) (img : Img) : Img :=
  if img.width > cfg.SCREEN_W then
    img.resize cfg.SCREEN_W (pyHsize img.height cfg.SCREEN_W img.width)
  else img

/-- camera.py lines 174-180: `Image.new(mode, (((w+31)//32)*32, ((h+15)//16)*16))`
(a black canvas) followed by `pad.paste(img, (0, 0))`. -/
def padImage (pixelMode : Mode) (img : Img) : Img :=
  { width := (img.width + 31) / 32 * 32
    height := (img.height + 15) / 16 * 16
    pixel := fun x y => if x < img.width ∧ y < img.height then img.pixel x y else 0 }

/-- Side effects performed against the camera object, recorded as a trace. -/
inductive Event
  | addOverlay (buffer : Img) (size : Nat × Nat) (layer : Int)
  | sleep (seconds : Int)
  | removeOverlay (id : Int)
  | clearAnnotateText
  | captureFile (name : List Char)

/-- camera.py lines 147-198, `overlay_image(image_path, duration=0, layer=3,
mode='RGB')`.  `img` is the image decoded from `image_path`; `oid` is the
handle the camera library returns from `add_overlay` (a positive value when
an overlay is active; the source uses `-1` as the no-overlay sentinel).
Returns the Python return value paired with the trace of camera effects. -/
def overlay_image (cfg : Config) (img : Img) (duration : Int) (layer : Int)
    (pixelMode : Mode) (oid : Int) : Int × List Event :=
  let img2 := scaledImg cfg img
  let padded := padImage pixelMode img2
  if duration > 0 then
    (-1, [Event.addOverlay padded (img2.width, img2.height) layer,
          Event.sleep duration, Event.removeOverlay oid])
  else
    (oid, [Event.addOverlay padded (img2.width, img2.height) layer])

/-- The files written during a trace (the argument of each `CAMERA.capture`). -/
def fileWrites (trace : List Event) : List (List Char) :=
  trace.filterMap fun e =>
    match e with
    | Event.captureFile n => some n
    | _ => none

/-- camera.py lines 203-218, `taking_photo(filename_prefix)`: clear the
text annotation, capture to `filename_prefix + '.jpg'`, then show the
success overlay via `overlay_image(finished_image, 2)` (layer 3, mode RGB).
`successImg` is the decoded success asset, `oid` the handle its
`add_overlay` returns.  Console prints are not modelled. -/
def taking_photo (cfg : Config) (baseName : List Char) (successImg : Img)
    (oid : Int) : List Event :=
  Event.clearAnnotateText ::
    Event.captureFile (baseName ++ ".jpg".toList) ::
      (overlay_image cfg successImg 2 3 Mode.RGB oid).2

/-- The GPIO readings one iteration of the main loop observes: for each
button, whether `GPIO.event_detected` reports a latched edge, and the
level `GPIO.input` samples after the debounce sleep. -/
structure CycleInput where
  cameraEdge : Bool
  cameraLevel : Nat
  exitEdge : Bool
  exitLevel : Nat
  deriving DecidableEq

/-- camera.py lines 253-256: `photo_button_is_pressed` at the end of the
two `if` statements (None unless an edge was latched and the debounced
level reads 0). -/
def photoPressed (i : CycleInput) : Option Bool :=
  if i.cameraEdge then
    if i.cameraLevel = 0 then some true else none
  else none

/-- camera.py lines 258-261: `exit_button_is_pressed` likewise. -/
def exitPressed (i : CycleInput) : Option Bool :=
  if i.exitEdge then
    if i.exitLevel = 0 then some true else none
  else none

/-- The outcome one loop iteration decides on. -/
inductive Decision
  | idle
  | capture
  | exitReq
  deriving DecidableEq

/-- camera.py lines 263-273: exit check first (`return`), then the
test-mode auto-press overwrites `photo_button_is_pressed`, then
None means idle (sleep 0.1 and continue), anything else means capture. -/
def cycleDecision (testmode : Bool) (i : CycleInput) : Decision :=
  let photoP := photoPressed i
  let exitP := exitPressed i
  if exitP ≠ none then Decision.exitReq
  else
    let photoP2 := if testmode then some true else photoP
    if photoP2 = none then Decision.idle else Decision.capture

/-- Main-loop actions we track: silencing GPIO detection, running the
capture path, and re-arming edge detection. -/
inductive LoopEvent
  | disableEdge
  | captureCycle
  | enableEdge
  deriving DecidableEq

/-- How the main loop ended. -/
inductive LoopExit
  | exitButton
  | testmodeBreak
  deriving DecidableEq

/-- camera.py lines 249-294: the `while True` loop, run over a list of
per-cycle GPIO readings (`none` as exit status means the reading list was
exhausted with the loop still running).  On capture: remove both event
detects, take the photo, then `break` if `TESTMODE_AUTOPRESS_BUTTON`
else re-add both event detects and loop. -/
def runLoop (testmode : Bool) : List CycleInput → List LoopEvent × Option LoopExit
  | [] => ([], none)
  | i :: rest =>
    match cycleDecision testmode i with
    | Decision.exitReq => ([], some LoopExit.exitButton)
    | Decision.idle => runLoop testmode rest
    | Decision.capture =>
      if testmode then
        ([LoopEvent.disableEdge, LoopEvent.captureCycle], some LoopExit.testmodeBreak)
      else
        let r := runLoop testmode rest
        (LoopEvent.disableEdge :: LoopEvent.captureCycle :: LoopEvent.enableEdge :: r.1, r.2)

/-- Concrete configuration used by evaluation witnesses. -/
def cfgW : Config :=
  { SCREEN_W := 2
    REAL_PATH := "/app".toList
    SAVE_RAW_IMAGES_FOLDER := "photos".toList }

/-- Concrete 3x5 image used by evaluation witnesses. -/
def imgW : Img :=
  { width := 3
    height := 5
    pixel := fun x y => x + 10 * y }

/-- Concrete 4x6 image (wider than `cfgW`'s screen) used by witnesses. -/
def imgWide : Img :=
  { width := 4
    height := 6
    pixel := fun _ _ => 0 }

/-- Concrete 2x6 image (not wider than `cfgW`'s screen) used by witnesses. -/
def imgNarrow : Img :=
  { width := 2
    height := 6
    pixel := fun _ _ => 0 }

/-- C1: the buffer `overlay_image` submits via `add_overlay` is padded to
the least multiple of 32 at least the (post-scaling) width and the least
multiple of 16 at least the (post-scaling) height, and the logical size
tagged on the submitted overlay is the unpadded post-scaling image size. -/
theorem overlay_block_alignment (cfg : Config) (img : Img) (d : Int) (l : Int)
    (pm : Mode) (oid : Int) :
    Event.addOverlay (padImage pm (scaledImg cfg img))
        ((scaledImg cfg img).width, (scaledImg cfg img).height) l
      ∈ (overlay_image cfg img d l pm oid).2
    ∧ 32 ∣ (padImage pm (scaledImg cfg img)).width
    ∧ (scaledImg cfg img).width ≤ (padImage pm (scaledImg cfg img)).width
    ∧ (padImage pm (scaledImg cfg img)).width < (scaledImg cfg img).width + 32
    ∧ 16 ∣ (padImage pm (scaledImg cfg img)).height
    ∧ (scaledImg cfg img).height ≤ (padImage pm (scaledImg cfg img)).height
    ∧ (padImage pm (scaledImg cfg img)).height < (scaledImg cfg img).height + 16 := by
  refine ⟨?_, ?_, ?_, ?_, ?_, ?_, ?_⟩
  · by_cases hd : d > 0 <;> simp [overlay_image, hd]
  all_goals simp only [padImage]
  · exact dvd_mul_left 32 _
  · omega
  · omega
  · exact dvd_mul_left 16 _
  · omega
  · omega

/-- Configuration with a 7-pixel-wide display, for the C5 counterexample. -/
def cfgC : Config :=
  { SCREEN_W := 7
    REAL_PATH := "/app".toList
    SAVE_RAW_IMAGES_FOLDER := "photos".toList }

/-- A 10x90 image, for the C5 counterexample. -/
def imgC : Img :=
  { width := 10
    height := 90
    pixel := fun _ _ => 0 }

/-- C5 counterexample: for a 10x90 image on a 7-wide display the program
computes `int(90 * (7 / float(10)))`, and because `7 / 10` rounds to a
binary64 just below 0.7 the product rounds to just below 63, so the
scaled height is 62 — not the exact truncated ratio 90 * 7 / 10 = 63
the claim states. -/
theorem scale_height_rounds_below_ratio :
    imgC.width > cfgC.SCREEN_W
    ∧ (scaledImg cfgC imgC).height = 62
    ∧ imgC.height * cfgC.SCREEN_W / imgC.width = 63 := by
  refine ⟨by decide, ?_, by decide⟩
  decide

/-- C5 (amended): an image strictly wider than the screen is downscaled
to width `SCREEN_W` with height `int(float(h) * (SCREEN_W / float(w)))`
computed in IEEE binary64 — which can land one below the exact truncated
ratio `h * SCREEN_W / w`; an image not wider than the screen is left
unscaled. -/
theorem scale_to_screen_width_float (cfg : Config) (img : Img) :
    (img.width > cfg.SCREEN_W →
      (scaledImg cfg img).width = cfg.SCREEN_W
      ∧ (scaledImg cfg img).height = pyHsize img.height cfg.SCREEN_W img.width)
    ∧ (¬ img.width > cfg.SCREEN_W → scaledImg cfg img = img) := by
  constructor
  · intro h
    simp [scaledImg, Img.resize, h]
  · intro h
    simp [scaledImg, h]

/-- C5 witness: the 10x90 image on the 7-wide display scales to 7x62; a
2-wide image on a 2-wide screen is untouched. -/
theorem scale_to_screen_width_float_witness :
    (imgC.width > cfgC.SCREEN_W
      ∧ (scaledImg cfgC imgC).width = cfgC.SCREEN_W
      ∧ (scaledImg cfgC imgC).height = pyHsize imgC.height cfgC.SCREEN_W imgC.width)
    ∧ (¬ imgNarrow.width > cfgW.SCREEN_W ∧ scaledImg cfgW imgNarrow = imgNarrow) :=
  ⟨⟨by decide, (scale_to_screen_width_float cfgC imgC).1 (by decide)⟩,
   ⟨by decide, (scale_to_screen_width_float cfgW imgNarrow).2 (by decide)⟩⟩

/-- C7: padding never shrinks either dimension, and the paste at (0, 0)
preserves every visible pixel of the (possibly-scaled) image. -/
theorem padding_preserves_image (pm : Mode) (img : Img) (x y : Nat)
    (hx : x < img.width) (hy : y < img.height) :
    img.width ≤ (padImage pm img).width
    ∧ img.height ≤ (padImage pm img).height
    ∧ (padImage pm img).pixel x y = img.pixel x y := by
  refine ⟨?_, ?_, ?_⟩
  · simp only [padImage]; omega
  · simp only [padImage]; omega
  · simp [padImage, hx, hy]

/-- C7 witness: pixel (2, 4) of the padded 3x5 test image equals the
source pixel, and neither dimension shrank. -/
theorem padding_preserves_image_witness :
    2 < imgW.width ∧ 4 < imgW.height
    ∧ (imgW.width ≤ (padImage Mode.RGB imgW).width
       ∧ imgW.height ≤ (padImage Mode.RGB imgW).height
       ∧ (padImage Mode.RGB imgW).pixel 2 4 = imgW.pixel 2 4) :=
  ⟨by decide, by decide,
   padding_preserves_image Mode.RGB imgW 2 4 (by decide) (by decide)⟩

/-- C2: when both edges are latched and both debounced levels read the
active low state, the cycle decides exit (for any test-mode setting) and
the loop returns at once with no capture performed in that cycle. -/
theorem exit_priority_over_capture (t : Bool) (i : CycleInput)
    (rest : List CycleInput) (hce : i.cameraEdge = true) (hcl : i.cameraLevel = 0)
    (hee : i.exitEdge = true) (hel : i.exitLevel = 0) :
    cycleDecision t i = Decision.exitReq
    ∧ runLoop t (i :: rest) = ([], some LoopExit.exitButton) := by
  have hdec : cycleDecision t i = Decision.exitReq := by
    simp [cycleDecision, exitPressed, hee, hel]
  exact ⟨hdec, by simp [runLoop, hdec]⟩

/-- C2 witness: with both buttons edge-latched and reading low, the loop
exits immediately and its trace holds no capture. -/
theorem exit_priority_over_capture_witness :
    cycleDecision false ⟨true, 0, true, 0⟩ = Decision.exitReq
    ∧ runLoop false [⟨true, 0, true, 0⟩] = ([], some LoopExit.exitButton) :=
  exit_priority_over_capture false ⟨true, 0, true, 0⟩ [] rfl rfl rfl rfl

/-- C3: a button registers pressed exactly when its edge was latched and
the post-debounce level sample reads 0; in particular a latched edge with
a non-zero sampled level leaves that button unmarked for the cycle. -/
theorem debounce_level_gate (i : CycleInput) :
    (photoPressed i = some true ↔ i.cameraEdge = true ∧ i.cameraLevel = 0)
    ∧ (exitPressed i = some true ↔ i.exitEdge = true ∧ i.exitLevel = 0)
    ∧ (i.cameraLevel ≠ 0 → photoPressed i = none)
    ∧ (i.exitLevel ≠ 0 → exitPressed i = none) := by
  refine ⟨?_, ?_, ?_, ?_⟩
  · constructor
    · intro h
      by_cases he : i.cameraEdge <;> by_cases hl : i.cameraLevel = 0 <;>
        simp [photoPressed, he, hl] at h ⊢
    · rintro ⟨he, hl⟩
      simp [photoPressed, he, hl]
  · constructor
    · intro h
      by_cases he : i.exitEdge <;> by_cases hl : i.exitLevel = 0 <;>
        simp [exitPressed, he, hl] at h ⊢
    · rintro ⟨he, hl⟩
      simp [exitPressed, he, hl]
  · intro hl
    by_cases he : i.cameraEdge <;> simp [photoPressed, he, hl]
  · intro hl
    by_cases he : i.exitEdge <;> simp [exitPressed, he, hl]

/-- C3 witness: with both edges latched but both levels reading 1
(inactive), neither button registers pressed. -/
theorem debounce_level_gate_witness :
    photoPressed ⟨true, 1, true, 1⟩ = none ∧ exitPressed ⟨true, 1, true, 1⟩ = none :=
  ⟨(debounce_level_gate ⟨true, 1, true, 1⟩).2.2.1 (by decide),
   (debounce_level_gate ⟨true, 1, true, 1⟩).2.2.2 (by decide)⟩

/-- C4: with a positive hold duration `overlay_image` removes the overlay
it created and returns the sentinel -1; with duration 0 it returns the
active handle and removes nothing. -/
theorem overlay_hold_modes (cfg : Config) (img : Img) (d : Int) (l : Int)
    (pm : Mode) (oid : Int) :
    (d > 0 →
      (overlay_image cfg img d l pm oid).1 = -1
      ∧ Event.removeOverlay oid ∈ (overlay_image cfg img d l pm oid).2)
    ∧ (d = 0 →
      (overlay_image cfg img d l pm oid).1 = oid
      ∧ ∀ j, Event.removeOverlay j ∉ (overlay_image cfg img d l pm oid).2) := by
  constructor
  · intro hd
    simp [overlay_image, hd]
  · rintro rfl
    simp [overlay_image]

/-- C4 witness: duration 2 removes and returns -1; duration 0 returns the
handle 5 with no removal in the trace. -/
theorem overlay_hold_modes_witness :
    ((2 : Int) > 0
      ∧ (overlay_image cfgW imgW 2 3 Mode.RGB 5).1 = -1
      ∧ Event.removeOverlay 5 ∈ (overlay_image cfgW imgW 2 3 Mode.RGB 5).2)
    ∧ ((0 : Int) = 0
      ∧ (overlay_image cfgW imgW 0 3 Mode.RGB 5).1 = 5
      ∧ ∀ j, Event.removeOverlay j ∉ (overlay_image cfgW imgW 0 3 Mode.RGB 5).2) :=
  ⟨⟨by decide, (overlay_hold_modes cfgW imgW 2 3 Mode.RGB 5).1 (by decide)⟩,
   ⟨rfl, (overlay_hold_modes cfgW imgW 0 3 Mode.RGB 5).2 rfl⟩⟩

/-- C10: a strictly negative hold duration takes the same branch as
duration 0: identical result and trace, the handle is returned, and no
sleep or removal happens. -/
theorem overlay_negative_duration (cfg : Config) (img : Img) (l : Int)
    (pm : Mode) (oid : Int) (d : Int) (hd : d < 0) :
    overlay_image cfg img d l pm oid = overlay_image cfg img 0 l pm oid
    ∧ (overlay_image cfg img d l pm oid).1 = oid
    ∧ (∀ s, Event.sleep s ∉ (overlay_image cfg img d l pm oid).2)
    ∧ (∀ j, Event.removeOverlay j ∉ (overlay_image cfg img d l pm oid).2) := by
  have hneg : ¬ d > 0 := by omega
  refine ⟨?_, ?_, ?_, ?_⟩ <;> simp [overlay_image, hneg]

/-- C10 witness: duration -3 gives the same result as duration 0 and
returns the handle 5. -/
theorem overlay_negative_duration_witness :
    (-3 : Int) < 0
    ∧ (overlay_image cfgW imgW (-3) 3 Mode.RGB 5 = overlay_image cfgW imgW 0 3 Mode.RGB 5
       ∧ (overlay_image cfgW imgW (-3) 3 Mode.RGB 5).1 = 5
       ∧ (∀ s, Event.sleep s ∉ (overlay_image cfgW imgW (-3) 3 Mode.RGB 5).2)
       ∧ (∀ j, Event.removeOverlay j ∉ (overlay_image cfgW imgW (-3) 3 Mode.RGB 5).2)) :=
  ⟨by decide, overlay_negative_duration cfgW imgW 3 Mode.RGB 5 (-3) (by decide)⟩

/-- C6 counterexample: with the test-mode flag set but the exit button
edge-latched and reading low in the first poll cycle, the loop exits with
an empty trace — no capture is performed, contradicting "exactly one
capture regardless of button state". -/
theorem testmode_exit_no_capture :
    runLoop true [⟨false, 1, true, 0⟩] = ([], some LoopExit.exitButton)
    ∧ LoopEvent.captureCycle ∉ (runLoop true [⟨false, 1, true, 0⟩]).1 := by
  constructor
  · rfl
  · intro h
    simp [runLoop, cycleDecision, exitPressed, photoPressed] at h

/-- C6 (amended): with the test-mode flag set the loop always terminates
in its first poll cycle; if the exit button registers pressed it exits
with no capture, otherwise it disables edge detection, performs exactly
one capture, and breaks without re-enabling edge detection. -/
theorem testmode_single_cycle (i : CycleInput) (rest : List CycleInput) :
    runLoop true (i :: rest) =
      if exitPressed i = none then
        ([LoopEvent.disableEdge, LoopEvent.captureCycle], some LoopExit.testmodeBreak)
      else ([], some LoopExit.exitButton) := by
  by_cases hx : exitPressed i = none
  · have hdec : cycleDecision true i = Decision.capture := by
      simp [cycleDecision, hx]
    simp [runLoop, hdec, hx]
  · have hdec : cycleDecision true i = Decision.exitReq := by
      simp [cycleDecision, hx]
    simp [runLoop, hdec, hx]

/-- A wall-clock instant as `datetime.datetime.now()` reports it. -/
structure PyDateTime where
  year : Nat
  month : Nat
  day : Nat
  hour : Nat
  minute : Nat
  second : Nat
  microsecond : Nat
  deriving DecidableEq

/-- The decimal digit characters. -/
def digitChar : Nat → Char
  | 0 => '0'
  | 1 => '1'
  | 2 => '2'
  | 3 => '3'
  | 4 => '4'
  | 5 => '5'
  | 6 => '6'
  | 7 => '7'
  | 8 => '8'
  | _ => '9'

/-- Decimal rendering of a natural number, with a structural fuel so that
it evaluates by kernel reduction (`fuel = n` always suffices). -/
def natDigitsGo : Nat → Nat → List Char
  | 0, n => [digitChar n]
  | fuel + 1, n =>
    if n < 10 then [digitChar n]
    else natDigitsGo fuel (n / 10) ++ [digitChar (n % 10)]

/-- Decimal rendering of `n`. -/
def natDigits (n : Nat) : List Char :=
  natDigitsGo n n

/-- Zero-pad a rendered number on the left to width `k`
(CPython's %0kd formatting inside `str(datetime)`). -/
def leftPad (k : Nat) (l : List Char) : List Char :=
  List.replicate (k - l.length) '0' ++ l

/-- Two-digit field of `str(datetime)`. -/
def pad2 (n : Nat) : List Char := leftPad 2 (natDigits n)

/-- Four-digit year field of `str(datetime)`. -/
def pad4 (n : Nat) : List Char := leftPad 4 (natDigits n)

/-- Six-digit microsecond field of `str(datetime)`. -/
def pad6 (n : Nat) : List Char := leftPad 6 (natDigits n)

/-- The `YYYY-MM-DD HH:MM:SS` part of `str(datetime)`. -/
def datePart (dt : PyDateTime) : List Char :=
  pad4 dt.year ++ '-' :: pad2 dt.month ++ '-' :: pad2 dt.day
    ++ ' ' :: pad2 dt.hour ++ ':' :: pad2 dt.minute ++ ':' :: pad2 dt.second

/-- `str(datetime.datetime.now())`: the date-time at second resolution,
followed by `.` and six microsecond digits unless the microsecond field
is zero (CPython omits it then). -/
def pyStrDatetime (dt : PyDateTime) : List Char :=
  datePart dt ++ (if dt.microsecond = 0 then [] else '.' :: pad6 dt.microsecond)

/-- Python `s.split('.')[0]`: the prefix before the first dot. -/
def splitDot0 (l : List Char) : List Char :=
  l.takeWhile fun c => c != '.'

/-- Python `s.replace(a, b)` for one-character patterns. -/
def replaceChar (a b : Char) (l : List Char) : List Char :=
  l.map fun c => if c = a then b else c

/-- camera.py lines 126-144, `get_base_filename_for_images()`:
`str(datetime.now()).split('.')[0]`, then `.replace(' ', '_')`, then
`.replace(':', '-')`, appended to `REAL_PATH/SAVE_RAW_IMAGES_FOLDER/`. -/
def get_base_filename_for_images (cfg : Config) (now : PyDateTime) : List Char :=
  cfg.REAL_PATH ++ '/' :: (cfg.SAVE_RAW_IMAGES_FOLDER ++ '/' ::
    replaceChar ':' '-' (replaceChar ' ' '_' (splitDot0 (pyStrDatetime now))))

/-- The `YYYY-MM-DD_HH-MM-SS` timestamp the filename ends with. -/
def stampOf (dt : PyDateTime) : List Char :=
  pad4 dt.year ++ '-' :: pad2 dt.month ++ '-' :: pad2 dt.day
    ++ '_' :: pad2 dt.hour ++ '-' :: pad2 dt.minute ++ '-' :: pad2 dt.second

theorem digitChar_mem (n : Nat) :
    digitChar n ∈ ['0', '1', '2', '3', '4', '5', '6', '7', '8', '9'] := by
  unfold digitChar
  split <;> decide

theorem digitChar_safe (n : Nat) :
    digitChar n ≠ '.' ∧ digitChar n ≠ ' ' ∧ digitChar n ≠ ':' := by
  have hall : ∀ c ∈ ['0', '1', '2', '3', '4', '5', '6', '7', '8', '9'],
      c ≠ '.' ∧ c ≠ ' ' ∧ c ≠ ':' := by decide
  exact hall _ (digitChar_mem n)

theorem natDigitsGo_safe (fuel : Nat) :
    ∀ n, ∀ c ∈ natDigitsGo fuel n, c ≠ '.' ∧ c ≠ ' ' ∧ c ≠ ':' := by
  induction fuel with
  | zero =>
    intro n c hc
    simp only [natDigitsGo, List.mem_singleton] at hc
    subst hc
    exact digitChar_safe n
  | succ fuel ih =>
    intro n c hc
    by_cases h : n < 10
    · simp only [natDigitsGo, if_pos h, List.mem_singleton] at hc
      subst hc
      exact digitChar_safe n
    · simp only [natDigitsGo, if_neg h, List.mem_append, List.mem_singleton] at hc
      rcases hc with h1 | h1
      · exact ih (n / 10) c h1
      · subst h1
        exact digitChar_safe (n % 10)

theorem leftPad_safe (k n : Nat) :
    ∀ c ∈ leftPad k (natDigits n), c ≠ '.' ∧ c ≠ ' ' ∧ c ≠ ':' := by
  intro c hc
  rw [leftPad, List.mem_append] at hc
  rcases hc with h | h
  · rw [List.eq_of_mem_replicate h]
    decide
  · exact natDigitsGo_safe n n c h

theorem takeWhile_append_of_all {p : Char → Bool} (l r : List Char)
    (h : ∀ c ∈ l, p c = true) :
    List.takeWhile p (l ++ r) = l ++ List.takeWhile p r := by
  induction l with
  | nil => simp
  | cons c t ih =>
    have hc : p c = true := h c (List.mem_cons_self c t)
    have ht : ∀ x ∈ t, p x = true := fun x hx => h x (List.mem_cons_of_mem c hx)
    simp [List.takeWhile_cons, hc, ih ht]

theorem all_mem_append {P : Char → Prop} {l r : List Char}
    (hl : ∀ c ∈ l, P c) (hr : ∀ c ∈ r, P c) : ∀ c ∈ l ++ r, P c := by
  intro c hc
  rcases List.mem_append.mp hc with h | h
  exacts [hl c h, hr c h]

theorem all_mem_cons {P : Char → Prop} {x : Char} {l : List Char}
    (hx : P x) (hl : ∀ c ∈ l, P c) : ∀ c ∈ x :: l, P c := by
  intro c hc
  rcases List.mem_cons.mp hc with rfl | h
  exacts [hx, hl c h]

theorem leftPad_no_dot (k n : Nat) :
    ∀ c ∈ leftPad k (natDigits n), (c != '.') = true := by
  intro c hc
  rw [bne_iff_ne]
  exact (leftPad_safe k n c hc).1

theorem datePart_no_dot (dt : PyDateTime) :
    ∀ c ∈ datePart dt, (c != '.') = true := by
  unfold datePart pad4 pad2
  exact all_mem_append (all_mem_append (all_mem_append (all_mem_append
    (all_mem_append
      (leftPad_no_dot 4 dt.year)
      (all_mem_cons (by decide) (leftPad_no_dot 2 dt.month)))
      (all_mem_cons (by decide) (leftPad_no_dot 2 dt.day)))
      (all_mem_cons (by decide) (leftPad_no_dot 2 dt.hour)))
      (all_mem_cons (by decide) (leftPad_no_dot 2 dt.minute)))
      (all_mem_cons (by decide) (leftPad_no_dot 2 dt.second))

theorem splitDot0_pyStrDatetime (dt : PyDateTime) :
    splitDot0 (pyStrDatetime dt) = datePart dt := by
  unfold splitDot0 pyStrDatetime
  rw [takeWhile_append_of_all _ _ (datePart_no_dot dt)]
  by_cases h : dt.microsecond = 0
  · simp [h]
  · rw [if_neg h]
    simp [List.takeWhile_cons]

theorem replaceChar_append (a b : Char) (l r : List Char) :
    replaceChar a b (l ++ r) = replaceChar a b l ++ replaceChar a b r := by
  simp [replaceChar]

theorem replaceChar_cons_eq (a b : Char) (l : List Char) :
    replaceChar a b (a :: l) = b :: replaceChar a b l := by
  simp [replaceChar]

theorem replaceChar_cons_ne (a b c : Char) (l : List Char) (h : c ≠ a) :
    replaceChar a b (c :: l) = c :: replaceChar a b l := by
  simp [replaceChar, h]

theorem replaceChar_of_forall_ne (a b : Char) (l : List Char)
    (h : ∀ c ∈ l, c ≠ a) : replaceChar a b l = l := by
  induction l with
  | nil => rfl
  | cons c t ih =>
    have hc := h c (List.mem_cons_self c t)
    have ht := fun x hx => h x (List.mem_cons_of_mem c hx)
    rw [replaceChar_cons_ne a b c t hc, ih ht]

theorem replaceChar_space_pad (k n : Nat) :
    replaceChar ' ' '_' (leftPad k (natDigits n)) = leftPad k (natDigits n) :=
  replaceChar_of_forall_ne _ _ _ (fun c hc => (leftPad_safe k n c hc).2.1)

theorem replaceChar_colon_pad (k n : Nat) :
    replaceChar ':' '-' (leftPad k (natDigits n)) = leftPad k (natDigits n) :=
  replaceChar_of_forall_ne _ _ _ (fun c hc => (leftPad_safe k n c hc).2.2)

theorem replace_space_datePart (dt : PyDateTime) :
    replaceChar ' ' '_' (datePart dt) =
      pad4 dt.year ++ '-' :: pad2 dt.month ++ '-' :: pad2 dt.day
        ++ '_' :: pad2 dt.hour ++ ':' :: pad2 dt.minute ++ ':' :: pad2 dt.second := by
  unfold datePart pad4 pad2
  simp only [replaceChar_append]
  rw [replaceChar_space_pad,
      replaceChar_cons_ne ' ' '_' '-' _ (by decide), replaceChar_space_pad,
      replaceChar_cons_ne ' ' '_' '-' _ (by decide), replaceChar_space_pad,
      replaceChar_cons_eq, replaceChar_space_pad,
      replaceChar_cons_ne ' ' '_' ':' _ (by decide), replaceChar_space_pad,
      replaceChar_cons_ne ' ' '_' ':' _ (by decide), replaceChar_space_pad]

theorem replace_colon_after_space (dt : PyDateTime) :
    replaceChar ':' '-'
      (pad4 dt.year ++ '-' :: pad2 dt.month ++ '-' :: pad2 dt.day
        ++ '_' :: pad2 dt.hour ++ ':' :: pad2 dt.minute ++ ':' :: pad2 dt.second)
      = stampOf dt := by
  unfold stampOf pad4 pad2
  simp only [replaceChar_append]
  rw [replaceChar_colon_pad,
      replaceChar_cons_ne ':' '-' '-' _ (by decide), replaceChar_colon_pad,
      replaceChar_cons_ne ':' '-' '-' _ (by decide), replaceChar_colon_pad,
      replaceChar_cons_ne ':' '-' '_' _ (by decide), replaceChar_colon_pad,
      replaceChar_cons_eq, replaceChar_colon_pad,
      replaceChar_cons_eq, replaceChar_colon_pad]

theorem get_base_filename_stamp (cfg : Config) (dt : PyDateTime) :
    get_base_filename_for_images cfg dt
      = cfg.REAL_PATH ++ '/' :: (cfg.SAVE_RAW_IMAGES_FOLDER ++ '/' :: stampOf dt) := by
  unfold get_base_filename_for_images
  rw [splitDot0_pyStrDatetime, replace_space_datePart, replace_colon_after_space]

/-- C9: the base filename is `REAL_PATH/folder/YYYY-MM-DD_HH-MM-SS` (space
to underscore, colons to hyphens, sub-second part dropped), so two calls
in the same wall-clock second — any microsecond values — produce
identical prefixes, with no further disambiguation. -/
theorem filename_second_resolution (cfg : Config) (d1 d2 : PyDateTime)
    (hy : d1.year = d2.year) (hmo : d1.month = d2.month) (hd : d1.day = d2.day)
    (hh : d1.hour = d2.hour) (hmi : d1.minute = d2.minute)
    (hs : d1.second = d2.second) :
    get_base_filename_for_images cfg d1 = get_base_filename_for_images cfg d2
    ∧ get_base_filename_for_images cfg d1
        = cfg.REAL_PATH ++ '/' :: (cfg.SAVE_RAW_IMAGES_FOLDER ++ '/' :: stampOf d1) := by
  have hstamp : stampOf d1 = stampOf d2 := by
    unfold stampOf
    rw [hy, hmo, hd, hh, hmi, hs]
  exact ⟨by rw [get_base_filename_stamp, get_base_filename_stamp, hstamp],
         get_base_filename_stamp cfg d1⟩

/-- New Year's Eve instant with microseconds, for the C9 witness. -/
def dtA : PyDateTime := ⟨2017, 12, 31, 23, 59, 59, 123456⟩

/-- The same second with microsecond 0, for the C9 witness. -/
def dtB : PyDateTime := ⟨2017, 12, 31, 23, 59, 59, 0⟩

/-- C9 witness: the two instants in the same second yield the same base
filename, of the stated shape. -/
theorem filename_second_resolution_witness :
    get_base_filename_for_images cfgW dtA = get_base_filename_for_images cfgW dtB
    ∧ get_base_filename_for_images cfgW dtA
        = cfgW.REAL_PATH ++ '/' :: (cfgW.SAVE_RAW_IMAGES_FOLDER ++ '/' :: stampOf dtA) :=
  filename_second_resolution cfgW dtA dtB rfl rfl rfl rfl rfl rfl

/-- C8: `taking_photo` first clears the annotation text, then captures to
exactly `baseName ++ ".jpg"` — the only file the trace writes — and then
shows the success overlay (padded, layer 3) with a 2-second hold after
which it is removed. -/
theorem taking_photo_effects (cfg : Config) (baseName : List Char)
    (successImg : Img) (oid : Int) :
    fileWrites (taking_photo cfg baseName successImg oid) = [baseName ++ ".jpg".toList]
    ∧ List.take 2 (taking_photo cfg baseName successImg oid)
        = [Event.clearAnnotateText, Event.captureFile (baseName ++ ".jpg".toList)]
    ∧ Event.addOverlay (padImage Mode.RGB (scaledImg cfg successImg))
        ((scaledImg cfg successImg).width, (scaledImg cfg successImg).height) 3
        ∈ taking_photo cfg baseName successImg oid
    ∧ Event.sleep 2 ∈ taking_photo cfg baseName successImg oid
    ∧ Event.removeOverlay oid ∈ taking_photo cfg baseName successImg oid := by
  have h2 : (2 : Int) > 0 := by norm_num
  refine ⟨?_, ?_, ?_, ?_, ?_⟩ <;>
    simp [taking_photo, overlay_image, fileWrites, h2]

end PhotoBooth
